import Mathlib

/-!
Verification of the MCP client/bridge subsystem of the `mai` desktop
application (files `src/electron/mcp-types.js`, the bundled
`mcp-bridge` module and the main-process capabilities handler) against
its natural-language specification.

The JavaScript code is shallowly embedded: JSON values become an
inductive type, `JSON.parse` becomes a recursive-descent parser,
the framer `_parseJsonResponses` becomes a fuel-indexed loop, and the
stateful transport / registry / spawn-supervisor code becomes explicit
state-passing functions over small state records, with asynchronous
callbacks (process events, timers) modelled as discrete events
delivered in order.
-/

namespace Mai

/-- JSON values as produced by `JSON.parse`.  Object fields are kept in
insertion order (JavaScript objects preserve insertion order for string
keys, which matters for `Object.values(...).find(...)` in the
capabilities handler).  Numbers are modelled as integers: every numeric
literal appearing in this development (request ids, small payloads) is
an integer, and the parser model below accepts integer numerals only. -/
inductive Json where
  | null : Json
  | bool (b : Bool) : Json
  | num (n : Int) : Json
  | str (s : String) : Json
  | arr (elems : List Json) : Json
  | obj (fields : List (String × Json)) : Json
deriving Repr

mutual

/-- Structural equality test on JSON values. -/
def Json.beq : Json → Json → Bool
  | .null, .null => true
  | .bool a, .bool b => a == b
  | .num a, .num b => a == b
  | .str a, .str b => a == b
  | .arr a, .arr b => Json.beqList a b
  | .obj a, .obj b => Json.beqFields a b
  | _, _ => false

/-- Equality test on JSON arrays. -/
def Json.beqList : List Json → List Json → Bool
  | [], [] => true
  | a :: as, b :: bs => Json.beq a b && Json.beqList as bs
  | _, _ => false

/-- Equality test on JSON object field lists. -/
def Json.beqFields : List (String × Json) → List (String × Json) → Bool
  | [], [] => true
  | (k₁, v₁) :: as, (k₂, v₂) :: bs =>
      k₁ == k₂ && Json.beq v₁ v₂ && Json.beqFields as bs
  | _, _ => false

end

mutual

theorem Json.beq_iff : ∀ a b : Json, Json.beq a b = true ↔ a = b
  | .null, b => by cases b <;> simp [Json.beq]
  | .bool x, b => by cases b <;> simp [Json.beq]
  | .num x, b => by cases b <;> simp [Json.beq]
  | .str x, b => by cases b <;> simp [Json.beq]
  | .arr xs, b => by
      cases b <;> simp [Json.beq]
      exact Json.beqList_iff xs _
  | .obj xs, b => by
      cases b <;> simp [Json.beq]
      exact Json.beqFields_iff xs _

theorem Json.beqList_iff : ∀ a b : List Json, Json.beqList a b = true ↔ a = b
  | [], b => by cases b <;> simp [Json.beqList]
  | x :: xs, b => by
      cases b with
      | nil => simp [Json.beqList]
      | cons y ys =>
          simp [Json.beqList, Bool.and_eq_true, Json.beq_iff x y,
            Json.beqList_iff xs ys]

theorem Json.beqFields_iff :
    ∀ a b : List (String × Json), Json.beqFields a b = true ↔ a = b
  | [], b => by cases b <;> simp [Json.beqFields]
  | (k, v) :: xs, b => by
      cases b with
      | nil => simp [Json.beqFields]
      | cons y ys =>
          obtain ⟨k₂, v₂⟩ := y
          simp [Json.beqFields, Bool.and_eq_true, Json.beq_iff v v₂,
            Json.beqFields_iff xs ys, and_assoc]

end

instance : DecidableEq Json := fun a b =>
  decidable_of_iff (Json.beq a b = true) (Json.beq_iff a b)

/-- JavaScript truthiness of a JSON value (`if (x) ...`): `null`,
`false`, `0` and `""` are falsy, every other value (including empty
arrays and objects) is truthy. -/
def truthy : Json → Bool
  | .null => false
  | .bool b => b
  | .num n => n != 0
  | .str s => s != ""
  | .arr _ => true
  | .obj _ => true

/-- Truthiness of a possibly-absent value: `undefined` is falsy. -/
def truthyOpt : Option Json → Bool
  | none => false
  | some j => truthy j

/-- The `m.has(k)` operation on a JavaScript `Map`, modelled as an
insertion-ordered association list (`Map.prototype.set` overwrites in
place when the key exists and appends otherwise). -/
def mapHas [DecidableEq κ] (m : List (κ × α)) (k : κ) : Bool :=
  m.any (fun kv => kv.1 = k)

/-- The `m.get(k)` operation (`none` models `undefined`). -/
def mapGet [DecidableEq κ] (m : List (κ × α)) (k : κ) : Option α :=
  (m.find? (fun kv => kv.1 = k)).map (·.2)

/-- The `m.set(k, v)` operation. -/
def mapSet [DecidableEq κ] (m : List (κ × α)) (k : κ) (v : α) :
    List (κ × α) :=
  if m.any (fun kv => kv.1 = k) then
    m.map (fun kv => if kv.1 = k then (k, v) else kv)
  else m ++ [(k, v)]

/-- The `m.delete(k)` operation. -/
def mapDelete [DecidableEq κ] (m : List (κ × α)) (k : κ) :
    List (κ × α) :=
  m.filter (fun kv => kv.1 ≠ k)

/-- Property lookup `o.k` on a JSON object; `none` models `undefined`.
(Used only on non-`null` receivers, mirroring the guarded accesses in
the source.) -/
def getField (j : Json) (key : String) : Option Json :=
  match j with
  | .obj fields => mapGet fields key
  | _ => none

/-- The whitespace characters trimmed by JavaScript's
`String.prototype.trim()` (ASCII subset, sufficient for every input in
this development). -/
def isJsWs (c : Char) : Bool :=
  c == ' ' || c == '\t' || c == '\n' || c == '\r' ||
  c == '\x0b' || c == '\x0c'

/-- The `str.trim()` operation on a character list. -/
def jsTrimList (cs : List Char) : List Char :=
  (((cs.dropWhile isJsWs).reverse).dropWhile isJsWs).reverse

/-- The JavaScript `str.trim()` operation. -/
def jsTrim (s : String) : String :=
  String.mk (jsTrimList s.data)

/-- The JavaScript substring test `haystack.includes(needle)`. -/
def jsIncludes (haystack needle : String) : Bool :=
  (List.range (haystack.data.length + 1)).any
    (fun i => needle.data.isPrefixOf (haystack.data.drop i))

/-! ### A model of `JSON.parse`

A recursive-descent parser for JSON texts, used by
`_parseJsonResponses`.  Fuel-indexed for termination; the top-level
entry point supplies `length + 1` fuel, which always suffices because
every recursive call first consumes at least one character.  Numeric
literals are restricted to (optionally signed) integer numerals — every
number appearing in the program's protocol traffic modelled here is an
integer. -/

/-- The whitespace accepted by `JSON.parse` between tokens. -/
def isJsonWs (c : Char) : Bool :=
  c == ' ' || c == '\t' || c == '\n' || c == '\r'

/-- Skip inter-token whitespace. -/
def skipWsL (cs : List Char) : List Char := cs.dropWhile isJsonWs

/-- Value of a hexadecimal digit. -/
def hexVal (c : Char) : Option Nat :=
  if '0' ≤ c ∧ c ≤ '9' then some (c.toNat - '0'.toNat)
  else if 'a' ≤ c ∧ c ≤ 'f' then some (c.toNat - 'a'.toNat + 10)
  else if 'A' ≤ c ∧ c ≤ 'F' then some (c.toNat - 'A'.toNat + 10)
  else none

/-- Translate a single-character escape (`\"`, `\\`, `\/`, `\b`, `\f`,
`\n`, `\r`, `\t`). -/
def escChar (c : Char) : Option Char :=
  if c = '"' then some '"'
  else if c = '\\' then some '\\'
  else if c = '/' then some '/'
  else if c = 'b' then some '\x08'
  else if c = 'f' then some '\x0c'
  else if c = 'n' then some '\n'
  else if c = 'r' then some '\r'
  else if c = 't' then some '\t'
  else none

/-- Parse the body of a JSON string literal, after the opening quote;
returns the decoded characters and the input remaining after the
closing quote.  Raw control characters are rejected, as `JSON.parse`
does.  (`\uXXXX` escapes in the surrogate range do not occur in this
development.) -/
def parseStringBody : Nat → List Char → Option (List Char × List Char)
  | 0, _ => none
  | _ + 1, [] => none
  | fuel + 1, c :: rest =>
    if c = '"' then some ([], rest)
    else if c = '\\' then
      match rest with
      | [] => none
      | e :: rest₂ =>
        if e = 'u' then
          match rest₂ with
          | h₁ :: h₂ :: h₃ :: h₄ :: rest₃ =>
            match hexVal h₁, hexVal h₂, hexVal h₃, hexVal h₄ with
            | some a, some b, some c', some d =>
              (parseStringBody fuel rest₃).map
                (fun p => (Char.ofNat (((a * 16 + b) * 16 + c') * 16 + d) :: p.1, p.2))
            | _, _, _, _ => none
          | _ => none
        else
          match escChar e with
          | some ec =>
            (parseStringBody fuel rest₂).map (fun p => (ec :: p.1, p.2))
          | none => none
    else if c.toNat < 0x20 then none
    else (parseStringBody fuel rest).map (fun p => (c :: p.1, p.2))

/-- Decimal digit test. -/
def isDigitCh (c : Char) : Bool := '0' ≤ c && c ≤ '9'

/-- Numeric value of a digit string (most significant first). -/
def digitsVal (cs : List Char) : Nat :=
  cs.foldl (fun acc c => acc * 10 + (c.toNat - '0'.toNat)) 0

/-- Parse an unsigned integer numeral (JSON grammar: `0`, or a nonzero
digit followed by digits); rejects a following `.`, `e` or `E`
(fractional/exponent numerals are outside this model). -/
def parseNatNumeral (cs : List Char) : Option (Nat × List Char) :=
  let digits := cs.takeWhile isDigitCh
  let rest := cs.dropWhile isDigitCh
  if digits = [] then none
  else if digits.length > 1 ∧ digits.headD '0' = '0' then none
  else
    match rest with
    | c :: _ => if c = '.' ∨ c = 'e' ∨ c = 'E' then none else some (digitsVal digits, rest)
    | [] => some (digitsVal digits, rest)

mutual

/-- Parse one JSON value (leading whitespace allowed); returns the
value and the unconsumed input. -/
def parseValue : Nat → List Char → Option (Json × List Char)
  | 0, _ => none
  | fuel + 1, cs =>
    match skipWsL cs with
    | [] => none
    | c :: rest =>
      if c = '\x7b' then
        match skipWsL rest with
        | '\x7d' :: r => some (.obj [], r)
        | rest' => (parseFields fuel rest').map (fun p => (.obj p.1, p.2))
      else if c = '[' then
        match skipWsL rest with
        | ']' :: r => some (.arr [], r)
        | rest' => (parseElems fuel rest').map (fun p => (.arr p.1, p.2))
      else if c = '"' then
        (parseStringBody (rest.length + 1) rest).map
          (fun p => (.str (String.mk p.1), p.2))
      else if c = 't' then
        match rest with
        | 'r' :: 'u' :: 'e' :: r => some (.bool true, r)
        | _ => none
      else if c = 'f' then
        match rest with
        | 'a' :: 'l' :: 's' :: 'e' :: r => some (.bool false, r)
        | _ => none
      else if c = 'n' then
        match rest with
        | 'u' :: 'l' :: 'l' :: r => some (.null, r)
        | _ => none
      else if c = '-' then
        (parseNatNumeral rest).map (fun p => (.num (-(p.1 : Int)), p.2))
      else if isDigitCh c then
        (parseNatNumeral (c :: rest)).map (fun p => (.num (p.1 : Int), p.2))
      else none

/-- Parse the (nonempty) element list of a JSON array, up to and
including the closing `]`. -/
def parseElems : Nat → List Char → Option (List Json × List Char)
  | 0, _ => none
  | fuel + 1, cs =>
    match parseValue fuel cs with
    | none => none
    | some (v, rest) =>
      match skipWsL rest with
      | ',' :: rest₂ =>
        (parseElems fuel rest₂).map (fun p => (v :: p.1, p.2))
      | ']' :: rest₂ => some ([v], rest₂)
      | _ => none

/-- Parse the (nonempty) field list of a JSON object, up to and
including the closing `}`. -/
def parseFields : Nat → List Char → Option (List (String × Json) × List Char)
  | 0, _ => none
  | fuel + 1, cs =>
    match skipWsL cs with
    | '"' :: rest =>
      match parseStringBody (rest.length + 1) rest with
      | none => none
      | some (key, rest₂) =>
        match skipWsL rest₂ with
        | ':' :: rest₃ =>
          match parseValue fuel rest₃ with
          | none => none
          | some (v, rest₄) =>
            match skipWsL rest₄ with
            | ',' :: rest₅ =>
              (parseFields fuel rest₅).map
                (fun p => ((String.mk key, v) :: p.1, p.2))
            | '\x7d' :: rest₅ => some ([(String.mk key, v)], rest₅)
            | _ => none
        | _ => none
    | _ => none

end

/-- The `JSON.parse` model on a character list: one JSON value, with only
whitespace allowed after it. -/
def jsonParseList (cs : List Char) : Option Json :=
  match parseValue (cs.length + 1) cs with
  | some (j, rest) => if skipWsL rest = [] then some j else none
  | none => none

/-- The model of `JSON.parse(s)`, returning `none` where the JavaScript function
throws a `SyntaxError`. -/
def jsonParse (s : String) : Option Json := jsonParseList s.data

/-! ### The Message Framer: `StdioClientTransport._parseJsonResponses`

The inner brace scan of the framer counts raw `{` and `}` characters
(string literals are not treated specially), records `endPos = i + 1`
at the first `}` at which the two counts agree, and the outer loop then
attempts `JSON.parse` on that span, consuming it on success and
dropping a single character on failure. -/

/-- The brace scan of `_parseJsonResponses`: the first position `i + 1`
such that the `}` at index `i` makes the raw `}`-count equal the raw
`{`-count; `none` when no such position exists (`endPos === -1`). -/
def findBalancedEndAux : List Char → Nat → Nat → Nat → Option Nat
  | [], _, _, _ => none
  | c :: rest, opens, closes, i =>
    if c = '\x7b' then findBalancedEndAux rest (opens + 1) closes (i + 1)
    else if c = '\x7d' then
      if opens = closes + 1 then some (i + 1)
      else findBalancedEndAux rest opens (closes + 1) (i + 1)
    else findBalancedEndAux rest opens closes (i + 1)

/-- Entry point of the brace scan. -/
def findBalancedEnd (cs : List Char) : Option Nat :=
  findBalancedEndAux cs 0 0 0

/-- The `while (remaining.length > 0)` loop of `_parseJsonResponses`.
The JavaScript function returns only the parsed objects; the second
component models the unconsumed remainder required by the framer
contract: empty when the final whole-buffer `JSON.parse` succeeded
(everything was consumed) or the buffer ran out, and otherwise the
value of `remaining` when the loop breaks.  Fuel-indexed: every
iteration strictly shrinks `remaining`, so `length + 1` fuel always
suffices. -/
def parseLoop : Nat → List Char → List Json → List Json × String
  | _, [], acc => (acc.reverse, "")
  | 0, rem, acc => (acc.reverse, String.mk rem)
  | fuel + 1, rem, acc =>
    match jsonParseList rem with
    | some j => ((j :: acc).reverse, "")
    | none =>
      match findBalancedEnd rem with
      | none => (acc.reverse, String.mk rem)
      | some endPos =>
        match jsonParseList (rem.take endPos) with
        | some j => parseLoop fuel (jsTrimList (rem.drop endPos)) (j :: acc)
        | none => parseLoop fuel (jsTrimList (rem.drop 1)) acc

/-- The framer `StdioClientTransport._parseJsonResponses(text)`: the list of JSON
values recovered from `text`, together with the unconsumed remainder. -/
def parseJsonResponses (text : String) : List Json × String :=
  parseLoop (text.data.length + 1) (jsTrimList text.data) []

/-- Feeding a sequence of chunks through the framer, carrying each
call's unconsumed remainder into the next call (the re-assembly
experiment of the framing-idempotence property). -/
def frameChunks : String → List String → List Json × String
  | carry, [] => ([], carry)
  | carry, c :: rest =>
    let r₁ := parseJsonResponses (carry ++ c)
    let r₂ := frameChunks r₁.2 rest
    (r₁.1 ++ r₂.1, r₂.2)

/-! ### The Transport: `StdioClientTransport`

State: the pending-request map `responseHandlers` (id ↦ the
`{resolve, reject}` pair, identified here by an abstract handler
token), the id counter `lastRequestId`, and the `killed` flag of the
owned child process.  Handler callbacks firing (`resolve(x)` /
`reject(e)`) are recorded as outputs. -/

/-- Errors raised or used to reject promises in the embedded code,
each corresponding to one `new Error(...)` / rejection site. -/
inductive Err where
  /-- Thrown as `'Process not available'` (sendRequest on a dead process). -/
  | processNotAvailable : Err
  /-- Rejection `'Failed to write to process: ...'` (stdin write callback). -/
  | writeFailed (msg : String) : Err
  /-- Rejection `'Request timed out after 30 seconds'`. -/
  | requestTimeout : Err
  /-- Rejection `new Error(response.error.message \x7c\x7c 'Unknown error')`. -/
  | remote (message : Json) : Err
  /-- Process `'error'` event during spawn. -/
  | spawnError (msg : String) : Err
  /-- Rejection `'Process exited with code ...'` during the grace window. -/
  | exitedWithCode (code : Int) : Err
  /-- Rejection `'Process startup error: ...'` (fatal stderr pattern). -/
  | startupStderr (output : String) : Err
  /-- Rejection `'Process was killed during startup'`. -/
  | killedDuringStartup : Err
  /-- Rejection `'Failed to create MCP process: ...'` (getOrCreateClient wrapper). -/
  | failedToCreateProcess (e : Err) : Err
  /-- Rethrown connection-establishment failure in getOrCreateClient. -/
  | connectFailed (msg : String) : Err
deriving DecidableEq, Repr

/-- Transport state. -/
structure TransportState where
  /-- The `responseHandlers` map: pending request id ↦ handler token. -/
  handlers : List (Json × Nat)
  /-- The `lastRequestId` counter. -/
  lastRequestId : Int
  /-- The `this.process.killed` flag. -/
  processKilled : Bool
deriving DecidableEq, Repr

/-- A freshly constructed transport over a live process. -/
def TransportState.fresh : TransportState :=
  { handlers := [], lastRequestId := 0, processKilled := false }

/-- An observable promise settlement performed by the transport. -/
inductive TOut where
  /-- A call `resolve(response.result)` of the handler `tok` pending under `id`. -/
  | resolved (id : Json) (tok : Nat) (result : Option Json) : TOut
  /-- A call `reject(e)` of the handler `tok` pending under `id`. -/
  | rejected (id : Json) (tok : Nat) (e : Err) : TOut
deriving DecidableEq, Repr

/-- The `sendRequest` method: id computation `requestObj.id \x7c\x7c ++this.lastRequestId`
(the counter is incremented only when the supplied id is absent or
falsy), handler registration, and the stdin write whose failure
(`writeErr = some msg`) deletes the handler and rejects immediately.
Returns the new state and either the id now pending or the immediate
rejection. -/
def sendRequest (st : TransportState) (suppliedId : Option Json)
    (tok : Nat) (writeErr : Option String) :
    TransportState × Except Err Json :=
  if st.processKilled then (st, .error .processNotAvailable)
  else
    let assigned : Json × Int :=
      match suppliedId with
      | some j =>
        if truthy j then (j, st.lastRequestId)
        else (.num (st.lastRequestId + 1), st.lastRequestId + 1)
      | none => (.num (st.lastRequestId + 1), st.lastRequestId + 1)
    let rid := assigned.1
    let registered := mapSet st.handlers rid tok
    match writeErr with
    | none =>
      ({ st with handlers := registered, lastRequestId := assigned.2 }, .ok rid)
    | some m =>
      ({ st with handlers := mapDelete registered rid,
                 lastRequestId := assigned.2 }, .error (.writeFailed m))

/-- The wire envelope `{...requestObj, id: requestId, jsonrpc: "2.0"}`:
spread with overriding assignments (an existing key is overwritten in
place, a new key is appended). -/
def assembleRequest (reqFields : List (String × Json)) (rid : Json) : Json :=
  .obj (mapSet (mapSet reqFields "id" rid) "jsonrpc" (.str "2.0"))

/-- The value `response.error.message \x7c\x7c 'Unknown error'` for a truthy `error`
field value. -/
def errMessage (err : Json) : Json :=
  match getField err "message" with
  | some m => if truthy m then m else .str "Unknown error"
  | none => .str "Unknown error"

/-- Dispatch of one framed value in `_handleProcessOutput`'s `for`
loop: if `response.id` is truthy and has a registered handler, the
handler is deleted and rejected with `error.message` when
`response.error` is truthy, otherwise resolved with `response.result`;
every other value is skipped. -/
def handleResponse (st : TransportState) (r : Json) :
    TransportState × List TOut :=
  let idOpt := getField r "id"
  match idOpt with
  | some idv =>
    if truthy idv then
      match mapGet st.handlers idv with
      | some tok =>
        let st' := { st with handlers := mapDelete st.handlers idv }
        let errOpt := getField r "error"
        if truthyOpt errOpt then
          (st', [.rejected idv tok (.remote (errMessage (errOpt.getD .null)))])
        else
          (st', [.resolved idv tok (getField r "result")])
      | none => (st, [])
    else (st, [])
  | none => (st, [])

/-- The `for (const response of responses)` loop.  Reading
`response.id` on a `null` element throws a `TypeError`, which the
surrounding `try/catch` logs, abandoning the rest of the loop without
crashing the transport. -/
def handleResponses (st : TransportState) : List Json →
    TransportState × List TOut
  | [] => (st, [])
  | r :: rest =>
    if r = Json.null then (st, [])
    else
      let p := handleResponse st r
      let q := handleResponses p.1 rest
      (q.1, p.2 ++ q.2)

/-- The stdout handler `_handleProcessOutput(data)`: frame the chunk, then correlate each
framed value against the pending map. -/
def handleProcessOutput (st : TransportState) (data : String) :
    TransportState × List TOut :=
  handleResponses st (parseJsonResponses data).1

/-- The 30-second `setTimeout` callback registered by `sendRequest`
for `rid` firing: if the handler is still pending it is deleted and
rejected with the timeout error; otherwise nothing happens.  The
process is not touched. -/
def timeoutFires (st : TransportState) (rid : Json) :
    TransportState × List TOut :=
  match mapGet st.handlers rid with
  | some tok =>
    ({ st with handlers := mapDelete st.handlers rid },
     [.rejected rid tok .requestTimeout])
  | none => (st, [])

/-- The `close()` method: kill the process if not already killed; pending
handlers are left untouched. -/
def TransportState.close (st : TransportState) : TransportState :=
  { st with processKilled := true }

/-! ### The Process Supervisor: the grace-window monitor of
`spawnMCPProcess`

After the OS-level `spawn(...)` call returns a child-process handle,
`spawnMCPProcess` wires four callbacks — the `'error'` event, the
`'exit'` event, the stderr listener scanning for fatal diagnostics, and
the 500 ms startup timer — and returns a promise settled by whichever
of them fires first.  We model the callbacks as a list of discrete
events delivered in order; the promise keeps its first settlement. -/

/-- An event observed during the grace window. -/
inductive SpEvent where
  /-- The child process `'error'` event, with `err.message`. -/
  | errorEvt (msg : String) : SpEvent
  /-- The `'exit'` event; `none` models a `null` exit code. -/
  | exitEvt (code : Option Int) : SpEvent
  /-- A stderr `'data'` chunk. -/
  | stderrEvt (output : String) : SpEvent
  /-- An external `.kill()` setting `mcpProcess.killed` (never issued
  by `spawnMCPProcess` itself). -/
  | killedSet : SpEvent
  /-- The 500 ms startup `setTimeout` firing. -/
  | graceTimer : SpEvent
deriving DecidableEq, Repr

instance {ε α : Type} [DecidableEq ε] [DecidableEq α] :
    DecidableEq (Except ε α) := fun a b =>
  match a, b with
  | .ok x, .ok y => decidable_of_iff (x = y) (by simp)
  | .error x, .error y => decidable_of_iff (x = y) (by simp)
  | .ok _, .error _ => isFalse (by simp)
  | .error _, .ok _ => isFalse (by simp)

/-- The monitor's state: the `startupErrorReceived` flag, the process
flags, and the promise settlement (`none` while pending; `.ok` is the
resolution with the running process handle). -/
structure SpawnSt where
  startupErrorReceived : Bool
  killed : Bool
  exited : Bool
  settled : Option (Except Err Unit)
deriving DecidableEq, Repr

/-- State before any event: flags clear, promise pending. -/
def SpawnSt.init : SpawnSt :=
  { startupErrorReceived := false, killed := false, exited := false,
    settled := none }

/-- Settle the promise unless it already settled (a second
`resolve`/`reject` is a no-op). -/
def SpawnSt.settle (st : SpawnSt) (r : Except Err Unit) : SpawnSt :=
  match st.settled with
  | some _ => st
  | none => { st with settled := some r }

/-- Does a stderr chunk match one of the recognized fatal patterns
(`'ENOENT'`, `'command not found'`, `'Error: Cannot find module'`)? -/
def fatalStderrPattern (output : String) : Bool :=
  jsIncludes output "ENOENT" || jsIncludes output "command not found" ||
  jsIncludes output "Error: Cannot find module"

/-- One callback firing, exactly as wired in `spawnMCPProcess`. -/
def spawnStep (st : SpawnSt) (e : SpEvent) : SpawnSt :=
  match e with
  | .errorEvt m =>
    ({ st with startupErrorReceived := true } : SpawnSt).settle
      (.error (.spawnError m))
  | .exitEvt code =>
    let st := { st with exited := true }
    match code with
    | some c =>
      if c ≠ 0 then
        if st.startupErrorReceived then st
        else ({ st with startupErrorReceived := true } : SpawnSt).settle
          (.error (.exitedWithCode c))
      else st
    | none => st
  | .stderrEvt output =>
    if fatalStderrPattern output then
      if st.startupErrorReceived then st
      else ({ st with startupErrorReceived := true } : SpawnSt).settle
        (.error (.startupStderr (jsTrim output)))
    else st
  | .killedSet => { st with killed := true }
  | .graceTimer =>
    if st.killed then st.settle (.error .killedDuringStartup)
    else if st.startupErrorReceived then st
    else st.settle (.ok ())

/-- Run the monitor over a sequence of events. -/
def runSpawn (events : List SpEvent) : SpawnSt :=
  events.foldl spawnStep SpawnSt.init

/-- The startup-failure classifications: every rejection produced by
`spawnMCPProcess` is one of these, and none of them is the transport's
generic request timeout. -/
def Err.isStartupClass : Err → Bool
  | .spawnError _ => true
  | .exitedWithCode _ => true
  | .startupStderr _ => true
  | .killedDuringStartup => true
  | _ => false

/-! ### The Connection Registry: `getOrCreateClient` / `cleanupClients`

`activeClients` maps a server id to its stored connection
`{client, transport}` — modelled as a pair (connection handle, the
handle of the child process its transport owns).  `activeProcesses`
maps a server id to the process handle.  Fresh handles are drawn from
a counter; `spawnCount` counts OS-level spawns; `killedProcs` records
every process handle on which `.kill()` has been invoked. -/

/-- Registry state (module-level mutable maps of `mcp-bridge`). -/
structure Registry where
  activeClients : List (String × (Nat × Nat))
  activeProcesses : List (String × Nat)
  nextHandle : Nat
  spawnCount : Nat
  killedProcs : List Nat
deriving DecidableEq, Repr

/-- The empty registry. -/
def Registry.empty : Registry :=
  { activeClients := [], activeProcesses := [], nextHandle := 0,
    spawnCount := 0, killedProcs := [] }

/-- The client key: the `serverId` parameter defaults to
`serverCommand` and a falsy `serverId` also falls back to it
(`serverId \x7c\x7c serverCommand`). -/
def clientKey (serverCommand : String) (serverId : Option String) : String :=
  match serverId with
  | some s => if s ≠ "" then s else serverCommand
  | none => serverCommand

/-- The registry operation `getOrCreateClient(serverCommand, serverArgs, serverId)`.

`spawnOutcome` is the settlement of `spawnMCPProcess` when it has to
be awaited (the OS process is spawned either way, hence `spawnCount`
increments).  `connectOutcome` is the settlement of
`await client.connect(transport)`; in the source `Client.connect`
merely records the transport and always fulfills, but the `catch`
branch around it (close the transport, rethrow) is embedded faithfully
and is exercised through this parameter.  `serverArgs` is carried for
signature fidelity; the cached-client branch ignores it and the
command. -/
def getOrCreateClient (spawnOutcome : Except Err Unit)
    (connectOutcome : Except String Unit)
    (serverCommand : String) (serverArgs : List String)
    (serverId : Option String) (st : Registry) :
    Registry × Except Err (Nat × Nat) :=
  let key := clientKey serverCommand serverId
  match mapGet st.activeClients key with
  | some conn => (st, .ok conn)
  | none =>
    let spawned : Registry × Except Err Nat :=
      match mapGet st.activeProcesses key with
      | some p => (st, .ok p)
      | none =>
        match spawnOutcome with
        | .ok () =>
          let p := st.nextHandle
          ({ st with activeProcesses := mapSet st.activeProcesses key p,
                     nextHandle := st.nextHandle + 1,
                     spawnCount := st.spawnCount + 1 }, .ok p)
        | .error e =>
          ({ st with spawnCount := st.spawnCount + 1 },
           .error (.failedToCreateProcess e))
    match spawned with
    | (st₁, .error e) => (st₁, .error e)
    | (st₁, .ok p) =>
      -- transport construction over an existing process handle and the
      -- `new Client(...)` construction cannot throw; then connect:
      match connectOutcome with
      | .ok () =>
        let conn := (st₁.nextHandle, p)
        ({ st₁ with activeClients := mapSet st₁.activeClients key conn,
                    nextHandle := st₁.nextHandle + 1 }, .ok conn)
      | .error m =>
        -- catch: `await transport.close()` kills the process; the
        -- `activeProcesses` entry made above is left in place.
        ({ st₁ with killedProcs :=
            if p ∈ st₁.killedProcs then st₁.killedProcs
            else st₁.killedProcs ++ [p] },
         .error (.connectFailed m))

/-- One iteration of the first `cleanupClients` loop: await
`connection.transport.close()` inside `try/catch` — on success the
transport's process is killed if not already killed, on failure the
error is logged and nothing else happens. -/
def closeStep (closeErr : Nat → Option String) (acc : Registry)
    (kv : String × (Nat × Nat)) : Registry :=
  match closeErr kv.2.1 with
  | some _ => acc
  | none =>
    if kv.2.2 ∈ acc.killedProcs then acc
    else { acc with killedProcs := acc.killedProcs ++ [kv.2.2] }

/-- One iteration of the second `cleanupClients` loop: if the stored
process is not yet killed, call `process.kill()` inside `try/catch`. -/
def killStep (killErr : Nat → Option String) (acc : Registry)
    (kv : String × Nat) : Registry :=
  if kv.2 ∈ acc.killedProcs then acc
  else
    match killErr kv.2 with
    | some _ => acc
    | none => { acc with killedProcs := acc.killedProcs ++ [kv.2] }

/-- The bulk teardown `cleanupClients()`.  `closeErr conn` / `killErr p`
model the `try`-caught outcomes of `transport.close()` and
`process.kill()` (`some msg` = the call threw; the error is logged,
never rethrown).  The client map is cleared after the close loop and
the process map after the kill loop. -/
def cleanupClients (closeErr : Nat → Option String)
    (killErr : Nat → Option String) (st : Registry) : Registry :=
  let afterClose := st.activeClients.foldl (closeStep closeErr) st
  let cleared := { afterClose with activeClients := [] }
  let afterKill := st.activeProcesses.foldl (killStep killErr) cleared
  { afterKill with activeProcesses := [] }

/-! ### The Bridge Facade: `handleFetchMCPCapabilities`

The main-process IPC handler: connect through the bridge, issue
`tools/list` and `prompts/list` with each request wrapped in its own
`try/catch` that falls back to an empty array, and return
`{tools, prompts, error: null}`; only a failure before or during
connection establishment reaches the outer `catch`, which returns an
error-shaped result (the handler itself never rejects). -/

/-- The result object of the capabilities handler; `error = none`
models `error: null`. -/
structure CapOutcome where
  tools : List Json
  prompts : List Json
  error : Option String
deriving DecidableEq, Repr

/-- The `Array.isArray` test. -/
def Json.isArr : Json → Bool
  | .arr _ => true
  | _ => false

/-- Shape-tolerant extraction of the list from a `tools/list` or
`prompts/list` response: a falsy or absent response yields `[]`; a bare
array is taken as is; otherwise an array under the given field name,
else the first array-valued property (`Object.values(...).find`), else
`[]`. -/
def extractListField (resp : Option Json) (field : String) : List Json :=
  match resp with
  | none => []
  | some r =>
    if truthy r then
      match r with
      | .arr xs => xs
      | .obj fields =>
        match getField r field with
        | some (.arr xs) => xs
        | _ =>
          match (fields.map (·.2)).find? Json.isArr with
          | some (.arr xs) => xs
          | _ => []
      | _ => []
    else []

/-- The IPC handler `handleFetchMCPCapabilities({command, args, serverId})`.
`bridgeOutcome` is the settlement of `getOrCreateClient`;
`toolsOutcome` / `promptsOutcome` are the settlements of the two
`client.request` calls (`.ok` carries the resolved `result`, possibly
`undefined`). -/
def handleFetchMCPCapabilities (command : Option String)
    (bridgeOutcome : Except String Unit)
    (toolsOutcome : Except String (Option Json))
    (promptsOutcome : Except String (Option Json)) : CapOutcome :=
  match command with
  | none => { tools := [], prompts := [],
              error := some "Command is required to fetch MCP capabilities" }
  | some cmd =>
    if cmd = "" then
      { tools := [], prompts := [],
        error := some "Command is required to fetch MCP capabilities" }
    else
      match bridgeOutcome with
      | .error m => { tools := [], prompts := [], error := some m }
      | .ok () =>
        let tools :=
          match toolsOutcome with
          | .ok r => extractListField r "tools"
          | .error _ => []
        let prompts :=
          match promptsOutcome with
          | .ok r => extractListField r "prompts"
          | .error _ => []
        { tools := tools, prompts := prompts, error := none }

/-! ## Shared lemmas about the map operations -/

theorem mapGet_cons_self [DecidableEq κ] (kv : κ × α)
    (m : List (κ × α)) (k : κ) (h : kv.1 = k) :
    mapGet (kv :: m) k = some kv.2 := by
  unfold mapGet
  rw [List.find?_cons_of_pos _ (by simp [h])]
  rfl

theorem mapGet_cons_ne [DecidableEq κ] (kv : κ × α)
    (m : List (κ × α)) (k : κ) (h : ¬kv.1 = k) :
    mapGet (kv :: m) k = mapGet m k := by
  unfold mapGet
  rw [List.find?_cons_of_neg _ (by simp [h])]

theorem mapGet_eq_none_of_any_false [DecidableEq κ] (m : List (κ × α))
    (k : κ) (h : (m.any fun kv => kv.1 = k) = false) :
    mapGet m k = none := by
  unfold mapGet
  rw [List.find?_eq_none.mpr]
  · rfl
  · intro x hx
    simp only [decide_eq_true_eq]
    intro hxk
    have h' : ¬(m.any fun kv => decide (kv.1 = k)) = true := by rw [h]; simp
    exact h' (List.any_eq_true.mpr ⟨x, hx, by simp [hxk]⟩)

theorem mapGet_mapSet_self [DecidableEq κ] (m : List (κ × α)) (k : κ)
    (v : α) : mapGet (mapSet m k v) k = some v := by
  unfold mapSet
  split
  · induction m with
    | nil => rename_i h; simp at h
    | cons kv rest ih =>
      rename_i h
      by_cases hk : kv.1 = k
      · simp only [List.map_cons, if_pos hk]
        exact mapGet_cons_self _ _ _ rfl
      · simp only [List.map_cons, if_neg hk]
        rw [mapGet_cons_ne _ _ _ hk]
        simp only [List.any_cons, Bool.or_eq_true, decide_eq_true_eq] at h
        rcases h with h | h
        · exact absurd h hk
        · exact ih (by simpa using h)
  · rename_i h
    unfold mapGet
    rw [List.find?_append]
    have hm : List.find? (fun kv => decide (kv.1 = k)) m = none := by
      apply List.find?_eq_none.mpr
      intro x hx
      simp only [decide_eq_true_eq]
      intro hxk
      exact absurd (List.any_eq_true.mpr ⟨x, hx, by simp [hxk]⟩) h
    rw [hm]
    simp [List.find?]

theorem mapGet_mapSet_ne [DecidableEq κ] (m : List (κ × α)) (k j : κ)
    (v : α) (h : j ≠ k) : mapGet (mapSet m k v) j = mapGet m j := by
  unfold mapSet
  split
  · rename_i hAny
    clear hAny
    induction m with
    | nil => simp
    | cons kv rest ih =>
      by_cases hk : kv.1 = k
      · simp only [List.map_cons, if_pos hk]
        rw [mapGet_cons_ne _ _ _ (by simpa using fun hkj => h hkj.symm),
          mapGet_cons_ne _ _ _ (by rw [hk]; exact fun hkj => h hkj.symm)]
        exact ih
      · simp only [List.map_cons, if_neg hk]
        by_cases hj : kv.1 = j
        · rw [mapGet_cons_self _ _ _ hj, mapGet_cons_self _ _ _ hj]
        · rw [mapGet_cons_ne _ _ _ hj, mapGet_cons_ne _ _ _ hj]
          exact ih
  · unfold mapGet
    rw [List.find?_append]
    have h1 : List.find? (fun kv => decide (kv.1 = j)) [(k, v)] = none := by
      apply List.find?_eq_none.mpr
      intro x hx
      simp only [List.mem_singleton] at hx
      subst hx
      simp only [decide_eq_true_eq]
      exact fun hkj => h hkj.symm
    rw [h1]
    cases List.find? (fun kv => decide (kv.1 = j)) m <;> rfl

theorem mapGet_mapDelete_self [DecidableEq κ] (m : List (κ × α))
    (k : κ) : mapGet (mapDelete m k) k = none := by
  unfold mapDelete
  induction m with
  | nil => rfl
  | cons kv rest ih =>
    by_cases hk : kv.1 = k
    · simpa [List.filter_cons, hk] using ih
    · rw [List.filter_cons, if_pos (by simpa using hk)]
      rw [mapGet_cons_ne _ _ _ hk]
      exact ih

theorem mapGet_mapDelete_ne [DecidableEq κ] (m : List (κ × α)) (k j : κ)
    (h : j ≠ k) : mapGet (mapDelete m k) j = mapGet m j := by
  unfold mapDelete
  induction m with
  | nil => rfl
  | cons kv rest ih =>
    by_cases hk : kv.1 = k
    · rw [List.filter_cons, if_neg (by simpa using hk)]
      rw [mapGet_cons_ne _ _ _ (by rw [hk]; exact fun hkj => h hkj.symm)]
      exact ih
    · rw [List.filter_cons, if_pos (by simpa using hk)]
      by_cases hj : kv.1 = j
      · rw [mapGet_cons_self _ _ _ hj, mapGet_cons_self _ _ _ hj]
      · rw [mapGet_cons_ne _ _ _ hj, mapGet_cons_ne _ _ _ hj]
        exact ih

theorem mapGet_some_mem [DecidableEq κ] (m : List (κ × α)) (k : κ)
    (v : α) (h : mapGet m k = some v) : (k, v) ∈ m := by
  induction m with
  | nil => simp [mapGet] at h
  | cons kv rest ih =>
    by_cases hk : kv.1 = k
    · rw [mapGet_cons_self _ _ _ hk] at h
      obtain ⟨k₀, v₀⟩ := kv
      simp only at hk
      simp only [Option.some.injEq] at h
      subst hk h
      exact List.mem_cons_self _ _
    · rw [mapGet_cons_ne _ _ _ hk] at h
      exact List.mem_cons_of_mem _ (ih h)

theorem keys_nodup_mapSet [DecidableEq κ] (m : List (κ × α)) (k : κ)
    (v : α) (h : (m.map Prod.fst).Nodup) :
    ((mapSet m k v).map Prod.fst).Nodup := by
  unfold mapSet
  split
  · have : (m.map (fun kv => if kv.1 = k then (k, v) else kv)).map Prod.fst
        = m.map Prod.fst := by
      rw [List.map_map]
      apply List.map_congr_left
      intro kv _
      by_cases hk : kv.1 = k
      · simp [hk]
      · simp [hk]
    rw [this]
    exact h
  · rename_i hnot
    simp only [List.any_eq_true, decide_eq_true_eq, not_exists, not_and] at hnot
    rw [List.map_append]
    rw [List.nodup_append]
    refine ⟨h, List.nodup_singleton _, ?_⟩
    intro x hx hy
    simp only [List.map_cons, List.map_nil, List.mem_singleton] at hy
    subst hy
    obtain ⟨kv, hkv, hfst⟩ := List.mem_map.mp hx
    exact hnot kv hkv hfst

theorem keys_nodup_mapDelete [DecidableEq κ] (m : List (κ × α)) (k : κ)
    (h : (m.map Prod.fst).Nodup) :
    ((mapDelete m k).map Prod.fst).Nodup := by
  unfold mapDelete
  exact h.sublist (List.Sublist.map Prod.fst (List.filter_sublist m))

/-! ## C1: chunk-split invariance of the framer -/

/-- **C1, counterexample.**  The universally quantified
framing-idempotence property fails on the code: for the valid
two-object stream `{"a":"}"}{"b":2}` (each chunk below is a complete
JSON object, as witnessed by the two `jsonParse` conjuncts), feeding
the two chunks through the framer with the remainder carried yields
both objects, while feeding the whole stream in one chunk yields no
objects at all — the brace scan pairs the opening brace with the `}`
inside the string literal, the span fails to parse, and the single
dropped character destroys the stream. -/
theorem framer_split_invariance_counterexample :
    jsonParse "\x7b\"a\":\"\x7d\"\x7d" = some (.obj [("a", .str "\x7d")]) ∧
    jsonParse "\x7b\"b\":2\x7d" = some (.obj [("b", .num 2)]) ∧
    frameChunks "" ["\x7b\"a\":\"\x7d\"\x7d", "\x7b\"b\":2\x7d"] =
      ([.obj [("a", .str "\x7d")], .obj [("b", .num 2)]], "") ∧
    (parseJsonResponses "\x7b\"a\":\"\x7d\"\x7d\x7b\"b\":2\x7d").1 = [] ∧
    frameChunks "" ["\x7b\"a\":\"\x7d\"\x7d", "\x7b\"b\":2\x7d"] ≠
      parseJsonResponses ("\x7b\"a\":\"\x7d\"\x7d" ++ "\x7b\"b\":2\x7d") := by
  refine ⟨by decide, by decide, by decide, by decide, by decide⟩

/-- **C1 (amended).**  Chunk-split invariance does hold at the
specification's concrete instance: the stream `{"a":1}{"b":2}` fed
whole and fed as the mid-object split `["{\"a\":1", "}{\"b\":2}"]`
(carrying the first call's remainder) both yield exactly
`[{"a":1}, {"b":2}]` with empty remainder. -/
theorem framer_split_concrete_instance :
    parseJsonResponses "\x7b\"a\":1\x7d\x7b\"b\":2\x7d" =
      ([.obj [("a", .num 1)], .obj [("b", .num 2)]], "") ∧
    frameChunks "" ["\x7b\"a\":1", "\x7d\x7b\"b\":2\x7d"] =
      ([.obj [("a", .num 1)], .obj [("b", .num 2)]], "") := by
  refine ⟨by decide, by decide⟩

/-! ## C2: partial-buffer retention -/

/-- **C2, counterexample.**  The input `{"a":"}` is a proper prefix of
the JSON object `{"a":"}"}` (first two conjuncts), and the framer does
return zero objects on it — but the remainder is `"a":"}`, not the
full buffer: the `}` inside the string literal balances the brace
scan, the span fails to parse, and the loop drops the leading `{`
before giving up. -/
theorem framer_partial_retention_counterexample :
    ("\x7b\"a\":\"\x7d" ++ "\"\x7d" : String) = "\x7b\"a\":\"\x7d\"\x7d" ∧
    jsonParse "\x7b\"a\":\"\x7d\"\x7d" = some (.obj [("a", .str "\x7d")]) ∧
    parseJsonResponses "\x7b\"a\":\"\x7d" = ([], "\"a\":\"\x7d") ∧
    ("\"a\":\"\x7d" : String) ≠ "\x7b\"a\":\"\x7d" := by
  refine ⟨by decide, by decide, by decide, by decide⟩

/-- **C2 (amended).**  The empty buffer yields zero objects and an
empty remainder, and every nonempty buffer on which the whole-buffer
parse fails, whose brace scan finds no balanced span, and which
carries no leading or trailing whitespace (in particular, any proper
prefix of a JSON object whose braces are all structural, such as
`{"a":1`) yields zero objects and the full buffer as remainder. -/
theorem framer_partial_retention (s : String) (h₀ : s ≠ "")
    (h₁ : jsTrimList s.data = s.data) (h₂ : jsonParse s = none)
    (h₃ : findBalancedEnd s.data = none) :
    parseJsonResponses s = ([], s) ∧ parseJsonResponses "" = ([], "") := by
  refine ⟨?_, by decide⟩
  obtain ⟨c, cs, hcc⟩ : ∃ c cs, s.data = c :: cs := by
    cases hdd : s.data with
    | nil =>
      exfalso
      apply h₀
      cases s with
      | mk d => simp only [String.data] at hdd; rw [hdd]
    | cons c cs => exact ⟨c, cs, rfl⟩
  have h₂' : jsonParseList (c :: cs) = none := by rw [← hcc]; exact h₂
  have h₃' : findBalancedEnd (c :: cs) = none := by rw [← hcc]; exact h₃
  have hs : String.mk (c :: cs) = s := by
    cases s with
    | mk d => simp only [String.data] at hcc; rw [hcc]
  unfold parseJsonResponses
  rw [h₁, hcc]
  simp only [List.length_cons, parseLoop, h₂', h₃', List.reverse_nil]
  rw [hs]

/-- **C2, witness.**  The amended retention property evaluated at the
specification's concrete partial buffer `{"a":1`. -/
theorem framer_partial_retention_witness :
    parseJsonResponses "\x7b\"a\":1" = ([], "\x7b\"a\":1") ∧
    parseJsonResponses "" = ([], "") :=
  framer_partial_retention "\x7b\"a\":1" (by decide) (by decide) (by decide)
    (by decide)

/-! ## C3: response correlation -/

/-- **C3.**  Response correlation in `_handleProcessOutput`: (1) a
framed object whose id is registered in the pending map (all
registered ids are truthy — the invariant maintained by `sendRequest`)
has its PendingRequest removed and its promise rejected with an error
carrying `error.message` when an `error` field is (truthily) present,
and resolved with the object's `result` otherwise; (2) a framed value
whose id is unregistered or absent is discarded without touching the
state (no crash); (3) concretely, with requests 1 and 2 pending,
delivering the responses in the order [2, 1] settles id 2 first and
id 1 second, each with its own payload, leaving no pending request. -/
theorem transport_response_correlation :
    (∀ (st : TransportState) (r : Json) (i : Json) (tok : Nat),
        (∀ kv ∈ st.handlers, truthy kv.1 = true) →
        getField r "id" = some i → mapGet st.handlers i = some tok →
        (handleResponse st r).1 =
          { st with handlers := mapDelete st.handlers i } ∧
        (if truthyOpt (getField r "error") = true then
          (handleResponse st r).2 =
            [.rejected i tok
              (.remote (errMessage ((getField r "error").getD .null)))]
         else
          (handleResponse st r).2 = [.resolved i tok (getField r "result")])) ∧
    (∀ (st : TransportState) (r : Json),
        (∀ i, getField r "id" = some i → mapGet st.handlers i = none) →
        handleResponse st r = (st, [])) ∧
    handleProcessOutput
        { handlers := [(.num 1, 11), (.num 2, 22)], lastRequestId := 2,
          processKilled := false }
        "\x7b\"jsonrpc\":\"2.0\",\"id\":2,\"result\":\"p2\"\x7d\x7b\"jsonrpc\":\"2.0\",\"id\":1,\"result\":\"p1\"\x7d" =
      ({ handlers := [], lastRequestId := 2, processKilled := false },
       [.resolved (.num 2) 22 (some (.str "p2")),
        .resolved (.num 1) 11 (some (.str "p1"))]) := by
  refine ⟨?_, ?_, by decide⟩
  · intro st r i tok hinv hid htok
    have htr : truthy i = true := hinv (i, tok) (mapGet_some_mem _ _ _ htok)
    cases he : truthyOpt (getField r "error") with
    | true =>
      simp [handleResponse, hid, htr, htok, he]
    | false =>
      simp [handleResponse, hid, htr, htok, he]
  · intro st r h
    cases hid : getField r "id" with
    | none => simp [handleResponse, hid]
    | some i =>
      by_cases ht : truthy i = true
      · simp [handleResponse, hid, ht, h i hid]
      · simp [handleResponse, hid, ht]

/-- **C3, witness.**  The correlation property evaluated at a concrete
pending map and a concrete success response. -/
theorem transport_response_correlation_witness :
    (handleResponse
        { handlers := [(Json.num 5, 7)], lastRequestId := 5,
          processKilled := false }
        (.obj [("id", .num 5), ("result", .num 9)])).1 =
      { handlers :=
          mapDelete ([(Json.num 5, 7)] : List (Json × Nat)) (Json.num 5),
        lastRequestId := 5, processKilled := false } :=
  (transport_response_correlation.1
    { handlers := [(Json.num 5, 7)], lastRequestId := 5,
      processKilled := false }
    (.obj [("id", .num 5), ("result", .num 9)]) (.num 5) 7
    (by decide) (by decide) (by decide)).1

/-! ## C4: timeout isolation -/

/-- **C4.**  The per-request timeout callback: firing for a still
pending id removes exactly that PendingRequest and rejects its promise
with the timeout error; firing for an already settled id does nothing;
in both cases the process-killed flag is untouched (the child is never
killed because a request timed out) and every other pending id is
unaffected.  Concretely: of two concurrent requests (auto ids 1 and 2),
id 2 receives a timely response and resolves with its payload, id 1's
timeout then fires and rejects it, the process remains unkilled, and
id 2's own later timeout is a no-op. -/
theorem transport_timeout_isolation :
    (∀ (st : TransportState) (rid : Json),
        (timeoutFires st rid).1.processKilled = st.processKilled ∧
        (∀ tok, mapGet st.handlers rid = some tok →
          (timeoutFires st rid).1 =
            { st with handlers := mapDelete st.handlers rid } ∧
          (timeoutFires st rid).2 = [.rejected rid tok .requestTimeout]) ∧
        (mapGet st.handlers rid = none → timeoutFires st rid = (st, [])) ∧
        (∀ j, j ≠ rid →
          mapGet (timeoutFires st rid).1.handlers j = mapGet st.handlers j)) ∧
    (let st0 := TransportState.fresh
     let s1 := sendRequest st0 none 11 none
     let s2 := sendRequest s1.1 none 22 none
     let d := handleProcessOutput s2.1
       "\x7b\"jsonrpc\":\"2.0\",\"id\":2,\"result\":\"p2\"\x7d"
     let t1 := timeoutFires d.1 (.num 1)
     s1.2 = .ok (.num 1) ∧ s2.2 = .ok (.num 2) ∧
     d.2 = [.resolved (.num 2) 22 (some (.str "p2"))] ∧
     t1.2 = [.rejected (.num 1) 11 .requestTimeout] ∧
     t1.1.handlers = [] ∧ t1.1.processKilled = false ∧
     timeoutFires t1.1 (.num 2) = (t1.1, [])) := by
  refine ⟨?_, by decide⟩
  intro st rid
  refine ⟨?_, ?_, ?_, ?_⟩
  · unfold timeoutFires
    cases mapGet st.handlers rid <;> rfl
  · intro tok htok
    simp [timeoutFires, htok]
  · intro hnone
    simp [timeoutFires, hnone]
  · intro j hj
    cases htok : mapGet st.handlers rid with
    | none => simp [timeoutFires, htok]
    | some tok =>
      simp only [timeoutFires, htok]
      exact mapGet_mapDelete_ne _ _ _ hj

/-- **C4, witness.**  The timeout property evaluated at a concrete
pending request. -/
theorem transport_timeout_isolation_witness :
    (timeoutFires
        { handlers := [(Json.num 1, 11)], lastRequestId := 1,
          processKilled := false } (.num 1)).2 =
      [TOut.rejected (.num 1) 11 .requestTimeout] :=
  ((transport_timeout_isolation.1
      { handlers := [(Json.num 1, 11)], lastRequestId := 1,
        processKilled := false } (.num 1)).2.1 11 (by decide)).2

/-! ## C9: request-id assignment -/

/-- **C9, counterexample.**  A caller-supplied id of `0` is falsy, so
`requestObj.id \x7c\x7c ++this.lastRequestId` does not honor it: the request
is keyed and sent under the counter value `1`, and no PendingRequest
exists under id `0`. -/
theorem sendRequest_id_zero_counterexample :
    (sendRequest TransportState.fresh (some (.num 0)) 7 none).2 =
      .ok (.num 1) ∧
    mapGet (sendRequest TransportState.fresh
        (some (.num 0)) 7 none).1.handlers (.num 0) = none ∧
    Json.num 1 ≠ Json.num 0 := by
  refine ⟨by decide, by decide, by decide⟩

/-- **C9 (amended).**  Request-id assignment in `sendRequest`: (1) a
truthy caller-supplied id is honored — it keys the PendingRequest and
is the id written on the wire envelope; (2) with no supplied id the
counter assigns `lastRequestId + 1` and the counter advances, so a
fresh transport issues 1, 2, 3, … (conjunct 3 shows the first three);
(4) the pending map never holds two PendingRequests with the same id
(`Map.set` overwrites), so key-distinctness is preserved by every
send.  (A falsy supplied id — `0`, `""`, `null`, `false` — is treated
as absent and replaced by the counter.) -/
theorem sendRequest_id_assignment :
    (∀ (st : TransportState) (j : Json) (tok : Nat)
        (fields : List (String × Json)),
        st.processKilled = false → truthy j = true →
        (sendRequest st (some j) tok none).2 = .ok j ∧
        mapGet (sendRequest st (some j) tok none).1.handlers j = some tok ∧
        getField (assembleRequest fields j) "id" = some j) ∧
    (∀ (st : TransportState) (tok : Nat),
        st.processKilled = false →
        (sendRequest st none tok none).2 = .ok (.num (st.lastRequestId + 1)) ∧
        (sendRequest st none tok none).1.lastRequestId =
          st.lastRequestId + 1) ∧
    (let s1 := sendRequest TransportState.fresh none 1 none
     let s2 := sendRequest s1.1 none 2 none
     let s3 := sendRequest s2.1 none 3 none
     s1.2 = .ok (.num 1) ∧ s2.2 = .ok (.num 2) ∧ s3.2 = .ok (.num 3)) ∧
    (∀ (st : TransportState) (sid : Option Json) (tok : Nat)
        (w : Option String),
        (st.handlers.map Prod.fst).Nodup →
        ((sendRequest st sid tok w).1.handlers.map Prod.fst).Nodup) := by
  refine ⟨?_, ?_, by decide, ?_⟩
  · intro st j tok fields hk ht
    refine ⟨?_, ?_, ?_⟩
    · simp [sendRequest, hk, ht]
    · simp only [sendRequest, hk, Bool.false_eq_true, if_false, ht, if_true]
      exact mapGet_mapSet_self _ _ _
    · show mapGet (mapSet (mapSet fields "id" j) "jsonrpc" (.str "2.0"))
          "id" = some j
      rw [mapGet_mapSet_ne _ "jsonrpc" "id" _ (by decide)]
      exact mapGet_mapSet_self _ _ _
  · intro st tok hk
    refine ⟨?_, ?_⟩ <;> simp [sendRequest, hk]
  · intro st sid tok w hnd
    unfold sendRequest
    by_cases hk : st.processKilled
    · simp only [hk, if_true]
      exact hnd
    · simp only [hk, Bool.false_eq_true, if_false]
      cases w with
      | none => exact keys_nodup_mapSet _ _ _ hnd
      | some m =>
        exact keys_nodup_mapDelete _ _ (keys_nodup_mapSet _ _ _ hnd)

/-- **C9, witness.**  The id-assignment property at a concrete truthy
caller-supplied id. -/
theorem sendRequest_id_assignment_witness :
    (sendRequest TransportState.fresh (some (.str "abc")) 3 none).2 =
      .ok (.str "abc") :=
  (sendRequest_id_assignment.1 TransportState.fresh (.str "abc") 3
    [("method", .str "tools/list")] (by decide) (by decide)).1

/-! ## C5: get-or-create idempotence -/

/-- **C5.**  Calling `getOrCreateClient` twice with the same identity
`s` (starting from a registry with no live entry for `s`) succeeds on
the first call, returns the identical stored Connection pair on the
second call with the registry unchanged — even though the second call
supplies a different command, different args, and arbitrary oracle
outcomes, all of which the cached branch ignores — and performs
exactly one spawn across the two calls. -/
theorem registry_get_or_create_idempotent
    (st : Registry) (s cmd cmd' : String) (args args' : List String)
    (sp : Except Err Unit) (co : Except String Unit)
    (hs : s ≠ "")
    (h₁ : mapGet st.activeClients s = none)
    (h₂ : mapGet st.activeProcesses s = none) :
    ∃ conn,
      (getOrCreateClient (.ok ()) (.ok ()) cmd args (some s) st).2 =
        .ok conn ∧
      getOrCreateClient sp co cmd' args' (some s)
          (getOrCreateClient (.ok ()) (.ok ()) cmd args (some s) st).1 =
        ((getOrCreateClient (.ok ()) (.ok ()) cmd args (some s) st).1,
         .ok conn) ∧
      (getOrCreateClient (.ok ()) (.ok ()) cmd args (some s) st).1.spawnCount
        = st.spawnCount + 1 := by
  have hkey : clientKey cmd (some s) = s := by simp [clientKey, hs]
  have hkey' : clientKey cmd' (some s) = s := by simp [clientKey, hs]
  refine ⟨(st.nextHandle + 1, st.nextHandle), ?_, ?_, ?_⟩
  · simp [getOrCreateClient, hkey, h₁, h₂]
  · simp [getOrCreateClient, hkey, hkey', h₁, h₂, mapGet_mapSet_self]
  · simp [getOrCreateClient, hkey, h₁, h₂]

/-- **C5, witness.**  Get-or-create idempotence at a concrete identity
with differing second-call command and args. -/
theorem registry_get_or_create_idempotent_witness :
    ∃ conn,
      (getOrCreateClient (.ok ()) (.ok ()) "node" ["server.js"]
          (some "srv-1") Registry.empty).2 = .ok conn ∧
      getOrCreateClient (.error .killedDuringStartup) (.error "boom")
          "python" [] (some "srv-1")
          (getOrCreateClient (.ok ()) (.ok ()) "node" ["server.js"]
            (some "srv-1") Registry.empty).1 =
        ((getOrCreateClient (.ok ()) (.ok ()) "node" ["server.js"]
            (some "srv-1") Registry.empty).1, .ok conn) ∧
      (getOrCreateClient (.ok ()) (.ok ()) "node" ["server.js"]
          (some "srv-1") Registry.empty).1.spawnCount =
        Registry.empty.spawnCount + 1 :=
  registry_get_or_create_idempotent Registry.empty "srv-1" "node" "python"
    ["server.js"] [] (.error .killedDuringStartup) (.error "boom")
    (by decide) (by decide) (by decide)

/-! ## C6: failure after spawn -/

/-- **C6, counterexample.**  A realizable failure of connection
establishment after the child process was spawned: the process writes
`command not found` to stderr during the grace window and keeps
running, so `spawnMCPProcess` rejects with a startup error while the
monitor shows the OS-level process neither exited nor was ever killed
(`spawnMCPProcess` has no kill call on any failure path).
`getOrCreateClient` then propagates the wrapped error and stores no
entry, but the registry records no kill either — contradicting the
claim that the spawned process is terminated. -/
theorem registry_spawn_failure_counterexample :
    (runSpawn [.stderrEvt "command not found", .graceTimer]).settled =
      some (.error (.startupStderr "command not found")) ∧
    (runSpawn [.stderrEvt "command not found", .graceTimer]).exited =
      false ∧
    (runSpawn [.stderrEvt "command not found", .graceTimer]).killed =
      false ∧
    getOrCreateClient (.error (.startupStderr "command not found"))
        (.ok ()) "my-server" ["tool.js"] none Registry.empty =
      ({ Registry.empty with spawnCount := 1 },
       .error (.failedToCreateProcess
         (.startupStderr "command not found"))) ∧
    ({ Registry.empty with spawnCount := 1 } : Registry).killedProcs
      = [] := by
  refine ⟨by decide, by decide, by decide, by decide, by decide⟩

/-- **C6 (amended).**  When establishment fails after the spawn, the
error propagates to the caller and the client map is left untouched;
but the code does not terminate the spawned process on the reachable
failure path (spawn rejection leaves both maps unchanged and kills
nothing — first conjunct), and in the connect-failure branch (second
conjunct; unreachable in the source, where `Client.connect` always
fulfills) the transport is closed, killing the process, while the
process-map entry for the identity remains stored. -/
theorem registry_spawn_failure_no_partial_entry
    (st : Registry) (cmd : String) (args : List String)
    (sid : Option String) (e : Err) (co : Except String Unit)
    (h₁ : mapGet st.activeClients (clientKey cmd sid) = none)
    (h₂ : mapGet st.activeProcesses (clientKey cmd sid) = none) :
    getOrCreateClient (.error e) co cmd args sid st =
      ({ st with spawnCount := st.spawnCount + 1 },
       .error (.failedToCreateProcess e)) ∧
    (∀ m : String,
      (getOrCreateClient (.ok ()) (.error m) cmd args sid st).2 =
        .error (.connectFailed m) ∧
      mapGet (getOrCreateClient (.ok ()) (.error m) cmd args sid
          st).1.activeProcesses (clientKey cmd sid) = some st.nextHandle ∧
      st.nextHandle ∈
        (getOrCreateClient (.ok ()) (.error m) cmd args sid
          st).1.killedProcs ∧
      (getOrCreateClient (.ok ()) (.error m) cmd args sid
          st).1.activeClients = st.activeClients) := by
  constructor
  · simp [getOrCreateClient, h₁, h₂]
  · intro m
    refine ⟨?_, ?_, ?_, ?_⟩
    · simp [getOrCreateClient, h₁, h₂]
    · simp [getOrCreateClient, h₁, h₂, mapGet_mapSet_self]
    · simp only [getOrCreateClient, h₁, h₂]
      by_cases hmem : st.nextHandle ∈ st.killedProcs
      · simp [hmem]
      · simp [hmem]
    · simp [getOrCreateClient, h₁, h₂]

/-- **C6, witness.**  The amended failure behavior at a concrete fresh
registry. -/
theorem registry_spawn_failure_no_partial_entry_witness :
    getOrCreateClient (.error .killedDuringStartup) (.ok ()) "cmd" []
        none Registry.empty =
      ({ Registry.empty with spawnCount := 1 },
       .error (.failedToCreateProcess .killedDuringStartup)) :=
  (registry_spawn_failure_no_partial_entry Registry.empty "cmd" [] none
    .killedDuringStartup (.ok ()) (by decide) (by decide)).1

/-! ## C7: the spawn grace window

Supporting lemmas characterizing how one monitor step can change the
promise settlement, and how settlements propagate through a fold. -/

/-- Is this event one of the grace-window failures recognized by
`spawnMCPProcess` (an `'error'` event, a non-zero exit, or a
fatal-pattern stderr chunk)? -/
def SpEvent.isFatal : SpEvent → Bool
  | .errorEvt _ => true
  | .exitEvt (some c) => c ≠ 0
  | .exitEvt none => false
  | .stderrEvt s => fatalStderrPattern s
  | .killedSet => false
  | .graceTimer => false

theorem spawnStep_settled_cases (st : SpawnSt) (ev : SpEvent) :
    (spawnStep st ev).settled = st.settled ∨
    (∃ e, Err.isStartupClass e = true ∧
      (spawnStep st ev).settled = some (.error e)) ∨
    (ev = .graceTimer ∧ st.settled = none ∧
      (spawnStep st ev).settled = some (.ok ())) := by
  cases ev with
  | errorEvt m =>
    cases hs : st.settled with
    | some r => left; simp [spawnStep, SpawnSt.settle, hs]
    | none =>
      right; left
      exact ⟨.spawnError m, rfl, by simp [spawnStep, SpawnSt.settle, hs]⟩
  | exitEvt code =>
    cases code with
    | none => left; simp [spawnStep]
    | some c =>
      by_cases hc : c = 0
      · left; simp [spawnStep, hc]
      · by_cases hf : st.startupErrorReceived
        · left; simp [spawnStep, hc, hf]
        · cases hs : st.settled with
          | some r => left; simp [spawnStep, SpawnSt.settle, hc, hf, hs]
          | none =>
            right; left
            exact ⟨.exitedWithCode c, rfl,
              by simp [spawnStep, SpawnSt.settle, hc, hf, hs]⟩
  | stderrEvt s =>
    by_cases hp : fatalStderrPattern s
    · by_cases hf : st.startupErrorReceived
      · left; simp [spawnStep, hp, hf]
      · cases hs : st.settled with
        | some r => left; simp [spawnStep, SpawnSt.settle, hp, hf, hs]
        | none =>
          right; left
          exact ⟨.startupStderr (jsTrim s), rfl,
            by simp [spawnStep, SpawnSt.settle, hp, hf, hs]⟩
    · left; simp [spawnStep, hp]
  | killedSet => left; simp [spawnStep]
  | graceTimer =>
    by_cases hk : st.killed
    · cases hs : st.settled with
      | some r => left; simp [spawnStep, SpawnSt.settle, hk, hs]
      | none =>
        right; left
        exact ⟨.killedDuringStartup, rfl,
          by simp [spawnStep, SpawnSt.settle, hk, hs]⟩
    · by_cases hf : st.startupErrorReceived
      · left; simp [spawnStep, hk, hf]
      · cases hs : st.settled with
        | some r => left; simp [spawnStep, SpawnSt.settle, hk, hf, hs]
        | none =>
          right; right
          refine ⟨rfl, ?_, ?_⟩ <;>
            simp [spawnStep, SpawnSt.settle, hk, hf, hs]

theorem spawnStep_settled_frozen (st : SpawnSt) (ev : SpEvent)
    (x : Except Err Unit) (h : st.settled = some x) :
    (spawnStep st ev).settled = some x := by
  cases ev with
  | errorEvt m => simp [spawnStep, SpawnSt.settle, h]
  | exitEvt code =>
    cases code with
    | none => simp [spawnStep, h]
    | some c =>
      by_cases hc : c = 0
      · simp [spawnStep, hc, h]
      · by_cases hf : st.startupErrorReceived
        · simp [spawnStep, hc, hf, h]
        · simp [spawnStep, SpawnSt.settle, hc, hf, h]
  | stderrEvt s =>
    by_cases hp : fatalStderrPattern s
    · by_cases hf : st.startupErrorReceived
      · simp [spawnStep, hp, hf, h]
      · simp [spawnStep, SpawnSt.settle, hp, hf, h]
    · simp [spawnStep, hp, h]
  | killedSet => simp [spawnStep, h]
  | graceTimer =>
    by_cases hk : st.killed
    · simp [spawnStep, SpawnSt.settle, hk, h]
    · by_cases hf : st.startupErrorReceived
      · simp [spawnStep, hk, hf, h]
      · simp [spawnStep, SpawnSt.settle, hk, hf, h]

theorem foldl_spawnStep_frozen (evs : List SpEvent) :
    ∀ (st : SpawnSt) (x : Except Err Unit), st.settled = some x →
      (evs.foldl spawnStep st).settled = some x := by
  induction evs with
  | nil => intro st x h; exact h
  | cons ev rest ih =>
    intro st x h
    exact ih _ x (spawnStep_settled_frozen st ev x h)

theorem foldl_spawnStep_ok_mem (evs : List SpEvent) :
    ∀ st : SpawnSt, (evs.foldl spawnStep st).settled = some (.ok ()) →
      st.settled = some (.ok ()) ∨ SpEvent.graceTimer ∈ evs := by
  induction evs with
  | nil => intro st h; left; exact h
  | cons ev rest ih =>
    intro st h
    rcases ih (spawnStep st ev) h with h' | h'
    · rcases spawnStep_settled_cases st ev with hc | ⟨e, _, hc⟩ | ⟨hev, _, _⟩
      · left; rw [← hc]; exact h'
      · exact absurd (h'.symm.trans hc) (by simp)
      · right; rw [hev]; exact List.mem_cons_self _ _
    · right; exact List.mem_cons_of_mem _ h'

theorem foldl_spawnStep_error_class (evs : List SpEvent) :
    ∀ (st : SpawnSt) (x : Err),
      (∀ y, st.settled = some (.error y) → y.isStartupClass = true) →
      (evs.foldl spawnStep st).settled = some (.error x) →
      x.isStartupClass = true := by
  induction evs with
  | nil => intro st x hinv h; exact hinv x h
  | cons ev rest ih =>
    intro st x hinv h
    refine ih (spawnStep st ev) x ?_ h
    intro y hy
    rcases spawnStep_settled_cases st ev with hc | ⟨e, he, hc⟩ | ⟨_, _, hc⟩
    · exact hinv y (hc ▸ hy)
    · rw [hc] at hy
      injection hy with h₁
      injection h₁ with h₂
      exact h₂ ▸ he
    · rw [hc] at hy
      exact absurd hy (by simp)

/-- Clean-state preservation: a non-fatal, non-timer event keeps the
promise pending and the error flag clear. -/
theorem spawnStep_clean (st : SpawnSt) (ev : SpEvent)
    (hf : ev.isFatal = false) (ht : ev ≠ .graceTimer)
    (h : st.settled = none ∧ st.startupErrorReceived = false) :
    (spawnStep st ev).settled = none ∧
    (spawnStep st ev).startupErrorReceived = false := by
  obtain ⟨h₁, h₂⟩ := h
  cases ev with
  | errorEvt m => simp [SpEvent.isFatal] at hf
  | exitEvt code =>
    cases code with
    | none => simpa [spawnStep] using ⟨h₁, h₂⟩
    | some c =>
      have hc : c = 0 := by simpa [SpEvent.isFatal] using hf
      simpa [spawnStep, hc] using ⟨h₁, h₂⟩
  | stderrEvt s =>
    have hp : fatalStderrPattern s = false := by
      simpa [SpEvent.isFatal] using hf
    simpa [spawnStep, hp] using ⟨h₁, h₂⟩
  | killedSet => simpa [spawnStep] using ⟨h₁, h₂⟩
  | graceTimer => exact absurd rfl ht

/-- A fatal event settles a clean monitor with an error. -/
theorem spawnStep_fatal_rejects (st : SpawnSt) (ev : SpEvent)
    (hf : ev.isFatal = true)
    (h : st.settled = none ∧ st.startupErrorReceived = false) :
    ∃ e, (spawnStep st ev).settled = some (.error e) := by
  obtain ⟨h₁, h₂⟩ := h
  cases ev with
  | errorEvt m =>
    exact ⟨.spawnError m, by simp [spawnStep, SpawnSt.settle, h₁]⟩
  | exitEvt code =>
    cases code with
    | none => simp [SpEvent.isFatal] at hf
    | some c =>
      have hc : ¬c = 0 := by simpa [SpEvent.isFatal] using hf
      exact ⟨.exitedWithCode c,
        by simp [spawnStep, SpawnSt.settle, hc, h₁, h₂]⟩
  | stderrEvt s =>
    have hp : fatalStderrPattern s = true := by
      simpa [SpEvent.isFatal] using hf
    exact ⟨.startupStderr (jsTrim s),
      by simp [spawnStep, SpawnSt.settle, hp, h₁, h₂]⟩
  | killedSet => simp [SpEvent.isFatal] at hf
  | graceTimer => simp [SpEvent.isFatal] at hf

theorem foldl_spawnStep_fatal_rejects (evs : List SpEvent) :
    ∀ st : SpawnSt, SpEvent.graceTimer ∉ evs →
      (st.settled = none ∧ st.startupErrorReceived = false) →
      (∃ ev ∈ evs, ev.isFatal = true) →
      ∃ e, (evs.foldl spawnStep st).settled = some (.error e) := by
  induction evs with
  | nil => intro st _ _ hex; simp at hex
  | cons ev rest ih =>
    intro st hnt hclean hex
    have hnt' : SpEvent.graceTimer ∉ rest := fun hm =>
      hnt (List.mem_cons_of_mem _ hm)
    have hne : ev ≠ SpEvent.graceTimer := fun he =>
      hnt (he ▸ List.mem_cons_self _ _)
    by_cases hf : ev.isFatal = true
    · obtain ⟨e, he⟩ := spawnStep_fatal_rejects st ev hf hclean
      exact ⟨e, foldl_spawnStep_frozen rest _ _ he⟩
    · have hclean' := spawnStep_clean st ev (by simpa using hf) hne hclean
      apply ih (spawnStep st ev) hnt' hclean'
      rcases hex with ⟨ev', hm, hf'⟩
      rcases List.mem_cons.mp hm with rfl | hm'
      · exact absurd hf' hf
      · exact ⟨ev', hm', hf'⟩

/-- Quiet-state preservation: a non-fatal event that is neither a kill
nor the timer also leaves the killed flag clear. -/
theorem spawnStep_quiet (st : SpawnSt) (ev : SpEvent)
    (hf : ev.isFatal = false) (hk : ev ≠ .killedSet)
    (ht : ev ≠ .graceTimer)
    (h : st.settled = none ∧ st.startupErrorReceived = false ∧
      st.killed = false) :
    (spawnStep st ev).settled = none ∧
    (spawnStep st ev).startupErrorReceived = false ∧
    (spawnStep st ev).killed = false := by
  obtain ⟨h₁, h₂, h₃⟩ := h
  cases ev with
  | errorEvt m => simp [SpEvent.isFatal] at hf
  | exitEvt code =>
    cases code with
    | none => simpa [spawnStep] using ⟨h₁, h₂, h₃⟩
    | some c =>
      have hc : c = 0 := by simpa [SpEvent.isFatal] using hf
      simpa [spawnStep, hc] using ⟨h₁, h₂, h₃⟩
  | stderrEvt s =>
    have hp : fatalStderrPattern s = false := by
      simpa [SpEvent.isFatal] using hf
    simpa [spawnStep, hp] using ⟨h₁, h₂, h₃⟩
  | killedSet => exact absurd rfl hk
  | graceTimer => exact absurd rfl ht

theorem foldl_spawnStep_quiet (evs : List SpEvent) :
    ∀ st : SpawnSt,
      (∀ ev ∈ evs, ev.isFatal = false ∧ ev ≠ .killedSet ∧
        ev ≠ .graceTimer) →
      (st.settled = none ∧ st.startupErrorReceived = false ∧
        st.killed = false) →
      ((evs.foldl spawnStep st).settled = none ∧
        (evs.foldl spawnStep st).startupErrorReceived = false ∧
        (evs.foldl spawnStep st).killed = false) := by
  induction evs with
  | nil => intro st _ h; exact h
  | cons ev rest ih =>
    intro st hq h
    have hev := hq ev (List.mem_cons_self _ _)
    exact ih _ (fun e he => hq e (List.mem_cons_of_mem _ he))
      (spawnStep_quiet st ev hev.1 hev.2.1 hev.2.2 h)

/-- **C7.**  The grace-window contract of `spawnMCPProcess`: (1) the
promise resolves with the process handle only via the grace-timer
callback — an `.ok` settlement implies the timer fired; (2) every
rejection carries a startup-failure classification and is never the
transport's generic request-timeout error; (3) if any fatal event (a
spawn `'error'`, a non-zero exit, or a recognized fatal stderr
diagnostic such as `command not found`, `Error: Cannot find module`,
or an ENOENT message) occurs within the grace window — i.e. before the
timer — the promise rejects with a startup classification; (4) with no
fatal event, no kill, and no early timer, the promise resolves exactly
when the 500 ms timer fires. -/
theorem spawn_grace_window :
    (∀ evs : List SpEvent, (runSpawn evs).settled = some (.ok ()) →
      SpEvent.graceTimer ∈ evs) ∧
    (∀ (evs : List SpEvent) (x : Err),
      (runSpawn evs).settled = some (.error x) →
      x.isStartupClass = true ∧ x ≠ .requestTimeout) ∧
    (∀ pre : List SpEvent, SpEvent.graceTimer ∉ pre →
      (∃ ev ∈ pre, ev.isFatal = true) →
      ∃ e, (runSpawn (pre ++ [SpEvent.graceTimer])).settled =
          some (.error e) ∧ e.isStartupClass = true) ∧
    (∀ pre : List SpEvent,
      (∀ ev ∈ pre, ev.isFatal = false ∧ ev ≠ .killedSet ∧
        ev ≠ .graceTimer) →
      (runSpawn (pre ++ [SpEvent.graceTimer])).settled =
        some (.ok ())) := by
  refine ⟨?_, ?_, ?_, ?_⟩
  · intro evs h
    rcases foldl_spawnStep_ok_mem evs SpawnSt.init h with h' | h'
    · exact absurd h' (by simp [SpawnSt.init])
    · exact h'
  · intro evs x h
    have hc := foldl_spawnStep_error_class evs SpawnSt.init x
      (by intro y hy; simp [SpawnSt.init] at hy) h
    refine ⟨hc, ?_⟩
    intro heq
    rw [heq] at hc
    simp [Err.isStartupClass] at hc
  · intro pre hnt hex
    obtain ⟨e, he⟩ := foldl_spawnStep_fatal_rejects pre SpawnSt.init hnt
      (by simp [SpawnSt.init]) hex
    have hfull : (runSpawn (pre ++ [SpEvent.graceTimer])).settled =
        some (.error e) := by
      unfold runSpawn
      rw [List.foldl_append]
      simp only [List.foldl_cons, List.foldl_nil]
      exact spawnStep_settled_frozen _ _ _ he
    refine ⟨e, hfull, ?_⟩
    have := foldl_spawnStep_error_class (pre ++ [SpEvent.graceTimer])
      SpawnSt.init e (by intro y hy; simp [SpawnSt.init] at hy) hfull
    exact this
  · intro pre hq
    have h := foldl_spawnStep_quiet pre SpawnSt.init hq
      (by simp [SpawnSt.init])
    unfold runSpawn
    rw [List.foldl_append]
    simp only [List.foldl_cons, List.foldl_nil]
    simp [spawnStep, SpawnSt.settle, h.1, h.2.1, h.2.2]

/-- **C7, witness.**  The grace-window rejection at the
specification's concrete scenario: `command not found` on stderr
followed by exit code 127, before the timer. -/
theorem spawn_grace_window_witness :
    ∃ e, (runSpawn [.stderrEvt "command not found", .exitEvt (some 127),
        .graceTimer]).settled = some (.error e) ∧
      e.isStartupClass = true :=
  spawn_grace_window.2.2.1
    [.stderrEvt "command not found", .exitEvt (some 127)] (by decide)
    ⟨.stderrEvt "command not found", by simp, by decide⟩

/-! ## C8: bulk teardown

Supporting lemmas: each loop body touches only `killedProcs`, kill
records are monotone through the folds, and a loop iteration whose
`try`-caught call succeeds records its kill. -/

theorem closeStep_fields (ce : Nat → Option String) (acc : Registry)
    (kv : String × (Nat × Nat)) :
    (closeStep ce acc kv).activeClients = acc.activeClients ∧
    (closeStep ce acc kv).activeProcesses = acc.activeProcesses := by
  unfold closeStep
  cases ce kv.2.1 with
  | none =>
    by_cases hm : kv.2.2 ∈ acc.killedProcs <;> simp [hm]
  | some m => exact ⟨rfl, rfl⟩

theorem killStep_fields (ke : Nat → Option String) (acc : Registry)
    (kv : String × Nat) :
    (killStep ke acc kv).activeClients = acc.activeClients ∧
    (killStep ke acc kv).activeProcesses = acc.activeProcesses := by
  unfold killStep
  by_cases hm : kv.2 ∈ acc.killedProcs
  · simp [hm]
  · cases ke kv.2 with
    | none => simp [hm]
    | some m => simp [hm]

theorem foldl_closeStep_fields (ce : Nat → Option String)
    (l : List (String × (Nat × Nat))) : ∀ acc : Registry,
    (l.foldl (closeStep ce) acc).activeClients = acc.activeClients ∧
    (l.foldl (closeStep ce) acc).activeProcesses = acc.activeProcesses := by
  induction l with
  | nil => intro acc; exact ⟨rfl, rfl⟩
  | cons kv rest ih =>
    intro acc
    refine ⟨?_, ?_⟩
    · rw [List.foldl_cons, (ih _).1, (closeStep_fields ce acc kv).1]
    · rw [List.foldl_cons, (ih _).2, (closeStep_fields ce acc kv).2]

theorem foldl_killStep_fields (ke : Nat → Option String)
    (l : List (String × Nat)) : ∀ acc : Registry,
    (l.foldl (killStep ke) acc).activeClients = acc.activeClients ∧
    (l.foldl (killStep ke) acc).activeProcesses = acc.activeProcesses := by
  induction l with
  | nil => intro acc; exact ⟨rfl, rfl⟩
  | cons kv rest ih =>
    intro acc
    refine ⟨?_, ?_⟩
    · rw [List.foldl_cons, (ih _).1, (killStep_fields ke acc kv).1]
    · rw [List.foldl_cons, (ih _).2, (killStep_fields ke acc kv).2]

theorem closeStep_killed_mono (ce : Nat → Option String) (acc : Registry)
    (kv : String × (Nat × Nat)) (p : Nat) (h : p ∈ acc.killedProcs) :
    p ∈ (closeStep ce acc kv).killedProcs := by
  unfold closeStep
  cases ce kv.2.1 with
  | none =>
    by_cases hm : kv.2.2 ∈ acc.killedProcs
    · simpa [hm] using h
    · simp [hm, List.mem_append]
      exact Or.inl h
  | some m => exact h

theorem killStep_killed_mono (ke : Nat → Option String) (acc : Registry)
    (kv : String × Nat) (p : Nat) (h : p ∈ acc.killedProcs) :
    p ∈ (killStep ke acc kv).killedProcs := by
  unfold killStep
  by_cases hm : kv.2 ∈ acc.killedProcs
  · simpa [hm] using h
  · cases ke kv.2 with
    | none =>
      simp [hm, List.mem_append]
      exact Or.inl h
    | some m => simpa [hm] using h

theorem foldl_closeStep_killed_mono (ce : Nat → Option String)
    (l : List (String × (Nat × Nat))) : ∀ (acc : Registry) (p : Nat),
    p ∈ acc.killedProcs → p ∈ (l.foldl (closeStep ce) acc).killedProcs := by
  induction l with
  | nil => intro acc p h; exact h
  | cons kv rest ih =>
    intro acc p h
    exact ih _ p (closeStep_killed_mono ce acc kv p h)

theorem foldl_killStep_killed_mono (ke : Nat → Option String)
    (l : List (String × Nat)) : ∀ (acc : Registry) (p : Nat),
    p ∈ acc.killedProcs → p ∈ (l.foldl (killStep ke) acc).killedProcs := by
  induction l with
  | nil => intro acc p h; exact h
  | cons kv rest ih =>
    intro acc p h
    exact ih _ p (killStep_killed_mono ke acc kv p h)

theorem closeStep_kills (ce : Nat → Option String) (acc : Registry)
    (kv : String × (Nat × Nat)) (h : ce kv.2.1 = none) :
    kv.2.2 ∈ (closeStep ce acc kv).killedProcs := by
  unfold closeStep
  rw [h]
  by_cases hm : kv.2.2 ∈ acc.killedProcs
  · simpa [hm] using hm
  · simp [hm, List.mem_append]

theorem killStep_kills (ke : Nat → Option String) (acc : Registry)
    (kv : String × Nat) (h : ke kv.2 = none) :
    kv.2 ∈ (killStep ke acc kv).killedProcs := by
  unfold killStep
  by_cases hm : kv.2 ∈ acc.killedProcs
  · simpa [hm] using hm
  · rw [h]
    simp [hm, List.mem_append]

theorem foldl_closeStep_kills (ce : Nat → Option String)
    (l : List (String × (Nat × Nat))) (kv : String × (Nat × Nat))
    (hm : kv ∈ l) (h : ce kv.2.1 = none) : ∀ acc : Registry,
    kv.2.2 ∈ (l.foldl (closeStep ce) acc).killedProcs := by
  induction l with
  | nil => cases hm
  | cons x rest ih =>
    intro acc
    rcases List.mem_cons.mp hm with rfl | hm'
    · exact foldl_closeStep_killed_mono ce rest _ _
        (closeStep_kills ce acc kv h)
    · exact ih hm' _

theorem foldl_killStep_kills (ke : Nat → Option String)
    (l : List (String × Nat)) (kv : String × Nat)
    (hm : kv ∈ l) (h : ke kv.2 = none) : ∀ acc : Registry,
    kv.2 ∈ (l.foldl (killStep ke) acc).killedProcs := by
  induction l with
  | nil => cases hm
  | cons x rest ih =>
    intro acc
    rcases List.mem_cons.mp hm with rfl | hm'
    · exact foldl_killStep_killed_mono ke rest _ _
        (killStep_kills ke acc kv h)
    · exact ih hm' _

/-- **C8.**  `cleanupClients` is unconditionally best-effort: whatever
the `try`-caught outcomes of the individual `transport.close()` and
`process.kill()` calls, it returns normally with both the client map
and the process map empty; running it again (with any outcomes) on the
result is the identity, and running it on an empty registry is
likewise harmless; every stored connection whose close succeeds has
its process killed, and every stored process whose kill call succeeds
(or which was already killed) ends up killed. -/
theorem cleanup_clients_safe
    (closeErr killErr closeErr₂ killErr₂ : Nat → Option String)
    (st : Registry) :
    (cleanupClients closeErr killErr st).activeClients = [] ∧
    (cleanupClients closeErr killErr st).activeProcesses = [] ∧
    cleanupClients closeErr₂ killErr₂ (cleanupClients closeErr killErr st)
      = cleanupClients closeErr killErr st ∧
    (∀ kv ∈ st.activeClients, closeErr kv.2.1 = none →
      kv.2.2 ∈ (cleanupClients closeErr killErr st).killedProcs) ∧
    (∀ kv ∈ st.activeProcesses, killErr kv.2 = none →
      kv.2 ∈ (cleanupClients closeErr killErr st).killedProcs) := by
  have hclients : (cleanupClients closeErr killErr st).activeClients = [] := by
    unfold cleanupClients
    simp only
    rw [(foldl_killStep_fields killErr st.activeProcesses _).1]
  have hprocs : (cleanupClients closeErr killErr st).activeProcesses = [] :=
    rfl
  refine ⟨hclients, hprocs, ?_, ?_, ?_⟩
  · generalize hc : cleanupClients closeErr killErr st = c at hclients hprocs
    unfold cleanupClients
    rw [hclients, hprocs]
    simp only [List.foldl_nil]
    cases c with
    | mk ac ap nh sc kp =>
      simp only at hclients hprocs
      rw [hclients, hprocs]
  · intro kv hkv hce
    show kv.2.2 ∈ (st.activeProcesses.foldl (killStep killErr)
      { st.activeClients.foldl (closeStep closeErr) st with
        activeClients := [] }).killedProcs
    exact foldl_killStep_killed_mono killErr st.activeProcesses _ _
      (foldl_closeStep_kills closeErr st.activeClients kv hkv hce st)
  · intro kv hkv hke
    show kv.2 ∈ (st.activeProcesses.foldl (killStep killErr)
      { st.activeClients.foldl (closeStep closeErr) st with
        activeClients := [] }).killedProcs
    exact foldl_killStep_kills killErr st.activeProcesses kv hkv hke _

/-- **C8, witness.**  Teardown of a one-connection registry with all
cleanup calls succeeding: the connection's process ends up killed. -/
theorem cleanup_clients_safe_witness :
    (5 : Nat) ∈ (cleanupClients (fun _ => none) (fun _ => none)
      { activeClients := [("a", (9, 5))], activeProcesses := [("a", 5)],
        nextHandle := 10, spawnCount := 1,
        killedProcs := [] }).killedProcs :=
  (cleanup_clients_safe (fun _ => none) (fun _ => none) (fun _ => none)
      (fun _ => none)
      { activeClients := [("a", (9, 5))], activeProcesses := [("a", 5)],
        nextHandle := 10, spawnCount := 1,
        killedProcs := [] }).2.2.2.1 ("a", (9, 5)) (by simp) rfl

/-! ## C10: capabilities-fetch error isolation -/

/-- **C10.**  After a successful connection, the capabilities handler
always produces `error: null`; a rejection of the `tools/list` or
`prompts/list` request is caught by its own `try/catch` and yields an
empty `tools` / `prompts` array instead of an error, so a server that
answers neither list method still produces
`{tools: [], prompts: [], error: null}`. -/
theorem fetch_capabilities_error_isolation (cmd : String)
    (toolsOutcome promptsOutcome : Except String (Option Json))
    (hcmd : cmd ≠ "") :
    (handleFetchMCPCapabilities (some cmd) (.ok ()) toolsOutcome
        promptsOutcome).error = none ∧
    (∀ m, toolsOutcome = .error m →
      (handleFetchMCPCapabilities (some cmd) (.ok ()) toolsOutcome
        promptsOutcome).tools = []) ∧
    (∀ m, promptsOutcome = .error m →
      (handleFetchMCPCapabilities (some cmd) (.ok ()) toolsOutcome
        promptsOutcome).prompts = []) ∧
    (∀ m m', toolsOutcome = .error m → promptsOutcome = .error m' →
      handleFetchMCPCapabilities (some cmd) (.ok ()) toolsOutcome
        promptsOutcome = { tools := [], prompts := [], error := none }) := by
  refine ⟨?_, ?_, ?_, ?_⟩
  · cases toolsOutcome <;> cases promptsOutcome <;>
      simp [handleFetchMCPCapabilities, hcmd]
  · intro m hm
    subst hm
    cases promptsOutcome <;> simp [handleFetchMCPCapabilities, hcmd]
  · intro m hm
    subst hm
    cases toolsOutcome <;> simp [handleFetchMCPCapabilities, hcmd]
  · intro m m' hm hm'
    subst hm; subst hm'
    simp [handleFetchMCPCapabilities, hcmd]

/-- **C10, witness.**  A server answering neither list method yields
`{tools: [], prompts: [], error: null}`. -/
theorem fetch_capabilities_error_isolation_witness :
    handleFetchMCPCapabilities (some "node") (.ok ())
        (.error "Request timed out after 30 seconds")
        (.error "Request timed out after 30 seconds") =
      { tools := [], prompts := [], error := none } :=
  (fetch_capabilities_error_isolation "node"
      (.error "Request timed out after 30 seconds")
      (.error "Request timed out after 30 seconds") (by decide)).2.2.2
    "Request timed out after 30 seconds"
    "Request timed out after 30 seconds" rfl rfl

end Mai

